import Mathlib

/-!
# Verification of the particle-simulation core (Cpp-Particle-sim)

Shallow embedding of the physics and spatial-grid code of the repository:

* `src/src/main.cpp` — Verlet integration loop, wall-collision loop,
  spawn guard, `generatePositionsAndStaticData`, and the commented-out
  circle-to-circle collision block;
* `src/src/SpatialGrid.h` — `SpatialGrid` (constructor, `clear`,
  `addParticle`, `getNearbyParticles`);
* `src/optimizations.cpp` — `optimizedWallCollision`.

Coordinates are modelled as exact rationals (`ℚ`); the C++ code uses
`float`, so spec-level tolerances ("up to float epsilon") become exact
equalities in the model.  `static_cast<int>` on a float value truncates
toward zero; that is modelled by `cppTrunc`.
-/

/-- The C++ cast `static_cast<int>` applied to a real-valued quantity: truncation toward
zero (floor for non-negative arguments, ceiling for negative ones). -/
def cppTrunc (q : ℚ) : ℤ :=
  if q < 0 then ⌈q⌉ else ⌊q⌋

/-- One particle's slice of the parallel arrays `positions`,
`lastPositions`, `acceleration` of `src/src/main.cpp` (entries `2i` and
`2i+1` of each flat array). -/
structure Particle where
  posX : ℚ
  posY : ℚ
  lastX : ℚ
  lastY : ℚ
  accX : ℚ
  accY : ℚ
deriving DecidableEq, Repr

/-- The body of the Verlet-integration loop, `src/src/main.cpp:158-170`:
the current position is saved in `tempX`/`tempY`, the new position is
`2*position - lastPosition + acceleration*deltaTime*deltaTime`, and
`lastPositions` receives the saved old position. -/
def verletStep (deltaTime : ℚ) (p : Particle) : Particle :=
  { p with
    posX := 2 * p.posX - p.lastX + p.accX * deltaTime * deltaTime
    posY := 2 * p.posY - p.lastY + p.accY * deltaTime * deltaTime
    lastX := p.posX
    lastY := p.posY }

/-- One axis of the wall-collision loop, `src/src/main.cpp:175-194`:
if `pos <= wallLo` the position is set to the wall and the last position
is reflected (`lastPos = pos + (pos - lastPos)` evaluated after the
clamp), symmetrically for `pos >= wallHi`. -/
def wallBounceAxis (wallLo wallHi pos lastPos : ℚ) : ℚ × ℚ :=
  if pos ≤ wallLo then
    (wallLo, wallLo + (wallLo - lastPos))
  else if pos ≥ wallHi then
    (wallHi, wallHi + (wallHi - lastPos))
  else
    (pos, lastPos)

/-- The wall-collision loop body for one particle, `src/src/main.cpp:173-195`:
x-axis against `wallLeft`/`wallRight`, then y-axis against
`wallBottom`/`wallTop`, independently. -/
def wallBounce (wallLeft wallRight wallBottom wallTop : ℚ) (p : Particle) :
    Particle :=
  let rx := wallBounceAxis wallLeft wallRight p.posX p.lastX
  let ry := wallBounceAxis wallBottom wallTop p.posY p.lastY
  { p with posX := rx.1, lastX := rx.2, posY := ry.1, lastY := ry.2 }

/-- One physics sub-step of `src/src/main.cpp:156-198`: Verlet
integration of every particle, then the wall-collision pass over every
particle. -/
def subStep (deltaTime wallLeft wallRight wallBottom wallTop : ℚ)
    (ps : List Particle) : List Particle :=
  (ps.map (verletStep deltaTime)).map
    (wallBounce wallLeft wallRight wallBottom wallTop)

/-- The fixed-timestep physics loop of one rendered frame,
`src/src/main.cpp:156`: `UPDATER_PER_FRAME` sub-steps. -/
def simulationStep (k : ℕ) (deltaTime wallLeft wallRight wallBottom wallTop : ℚ)
    (ps : List Particle) : List Particle :=
  (subStep deltaTime wallLeft wallRight wallBottom wallTop)^[k] ps

/-- Function `optimizedWallCollision` from `src/optimizations.cpp:50-58`: one axis,
strict comparisons, `lastPos = wall + (pos - lastPos) * damping` computed
from the pre-clamp position, then `pos = wall`.  Returns
`(pos, lastPos)`. -/
def optimizedWallCollision (pos lastPos wallMin wallMax damping : ℚ) :
    ℚ × ℚ :=
  if pos < wallMin then
    (wallMin, wallMin + (pos - lastPos) * damping)
  else if pos > wallMax then
    (wallMax, wallMax + (pos - lastPos) * damping)
  else
    (pos, lastPos)

/-- Constant `NUMCIRCLES` of `src/src/main.cpp:24`. -/
def NUMCIRCLES : ℤ := 100

/-- Constant `radius` of `src/src/main.cpp:25` (`0.025f`). -/
def radius : ℚ := 1/40

/-- Constant `deltaTime` of `src/src/main.cpp:33`:
`(1.0f / TARGET_FPS) / UPDATER_PER_FRAME` with `TARGET_FPS = 60` and
`UPDATER_PER_FRAME = 1`. -/
def deltaTime : ℚ := (1/60) / 1

/-- The flat parallel particle arrays of `src/src/main.cpp` together with
the spawn counter `remainingCirclesToSpawn` (`src/src/main.cpp:114`). -/
structure SpawnState where
  positions : List ℚ
  lastPositions : List ℚ
  radiusColorData : List ℚ
  acceleration : List ℚ
  remainingCirclesToSpawn : ℤ
deriving DecidableEq, Repr

/-- Function `generatePositionsAndStaticData`, `src/src/main.cpp:260-279`: pushes
one circle at `(-0.9, 0.9)` with gravity `(0, -3)` and
radius/colour data, then rewrites the just-pushed `lastPositions` entries
to encode the initial velocity `(4.1, -2.4)` via the Verlet relation. -/
def generatePositionsAndStaticData (s : SpawnState) : SpawnState :=
  let positions := s.positions ++ [-9/10, 9/10]
  let lastPositions := s.lastPositions ++ [-9/10, 9/10]
  let acceleration := s.acceleration ++ [0, -3]
  let radiusColorData := s.radiusColorData ++ [radius, 1, 1, 1]
  let currentCircleIndex : ℤ := (positions.length : ℤ) / 2 - 1
  let lastPositions := lastPositions.set (currentCircleIndex * 2).toNat
    (positions.getD (currentCircleIndex * 2).toNat 0 - (41/10) * deltaTime)
  let lastPositions := lastPositions.set (currentCircleIndex * 2 + 1).toNat
    (positions.getD (currentCircleIndex * 2 + 1).toNat 0 + (12/5) * deltaTime)
  { positions := positions, lastPositions := lastPositions,
    radiusColorData := radiusColorData, acceleration := acceleration,
    remainingCirclesToSpawn := s.remainingCirclesToSpawn }

/-- The spawn guard of `src/src/main.cpp:139-147`: a spawn trigger
(`timerElapsed`, the elapsed-interval condition) creates a circle and
decrements `remainingCirclesToSpawn` only when
`remainingCirclesToSpawn > 0`. -/
def spawnStep (s : SpawnState) (timerElapsed : Bool) : SpawnState :=
  if s.remainingCirclesToSpawn > 0 ∧ timerElapsed = true then
    { generatePositionsAndStaticData s with
      remainingCirclesToSpawn := s.remainingCirclesToSpawn - 1 }
  else
    s

/-- The number of live circles simulated by the loops of
`src/src/main.cpp:158,173`: `NUMCIRCLES - remainingCirclesToSpawn`. -/
def liveCircleCount (s : SpawnState) : ℤ :=
  NUMCIRCLES - s.remainingCirclesToSpawn

/-- The positional-correction part of the commented-out circle-to-circle
collision block, `src/src/main.cpp:439-466`.  `dist` stands for the value
`sqrt(distanceSquared)` computed at line 451; it is passed as an argument
because the exact square root is taken outside the rationals in general.
Returns the updated positions `((xi', yi'), (xj', yj'))`. -/
def resolveCollision (xi yi xj yj radiusSum dist : ℚ) :
    (ℚ × ℚ) × (ℚ × ℚ) :=
  let dx := xi - xj
  let dy := yi - yj
  let invDistance := 1 / dist
  let nx := dx * invDistance
  let ny := dy * invDistance
  let overlap := radiusSum - dist
  let separationX := nx * overlap * (1/2)
  let separationY := ny * overlap * (1/2)
  ((xi + separationX, yi + separationY), (xj - separationX, yj - separationY))

/-! ## Theorems -/

/-- C1: one Verlet sub-step computes
`next = 2*position - previousPosition + acceleration*dt^2` on each axis
and sets `previousPosition` to the old position; at
`position=(0,0)`, `previousPosition=(-0.001,0)`, `acceleration=(0,-9.8)`,
`dt=0.01` it yields `position=(0.001,-0.00098)` and
`previousPosition=(0,0)` (exact in the rational model). -/
theorem verletStep_formula_and_example (dt : ℚ) (p : Particle) :
    (verletStep dt p).posX = 2 * p.posX - p.lastX + p.accX * dt ^ 2 ∧
    (verletStep dt p).posY = 2 * p.posY - p.lastY + p.accY * dt ^ 2 ∧
    (verletStep dt p).lastX = p.posX ∧
    (verletStep dt p).lastY = p.posY ∧
    verletStep (1/100)
      { posX := 0, posY := 0, lastX := -1/1000, lastY := 0,
        accX := 0, accY := -49/5 } =
      { posX := 1/1000, posY := -49/50000, lastX := 0, lastY := 0,
        accX := 0, accY := -49/5 } := by
  refine ⟨?_, ?_, rfl, rfl, ?_⟩
  · simp [verletStep]; ring
  · simp [verletStep]; ring
  · simp only [verletStep]
    norm_num

/-- C2: `optimizedWallCollision` clamps an out-of-wall position to the
wall and sets `lastPos = wall + (pos_pre_clamp - lastPos) * damping`,
independently for the low and high wall; positions inside
`[wallMin, wallMax]` are left unchanged. -/
theorem optimizedWallCollision_clamp_reflect
    (pos lastPos wallMin wallMax damping : ℚ) :
    (pos < wallMin →
      optimizedWallCollision pos lastPos wallMin wallMax damping =
        (wallMin, wallMin + (pos - lastPos) * damping)) ∧
    (pos > wallMax → ¬ pos < wallMin →
      optimizedWallCollision pos lastPos wallMin wallMax damping =
        (wallMax, wallMax + (pos - lastPos) * damping)) ∧
    (wallMin ≤ pos → pos ≤ wallMax →
      optimizedWallCollision pos lastPos wallMin wallMax damping =
        (pos, lastPos)) := by
  refine ⟨fun h => ?_, fun h h' => ?_, fun h h' => ?_⟩
  · simp [optimizedWallCollision, h]
  · simp [optimizedWallCollision, h, h']
  · simp [optimizedWallCollision, not_lt_of_ge h, not_lt_of_ge h']

/-- Witness for `optimizedWallCollision_clamp_reflect`: all three branches
at concrete inputs (walls `±0.95`, damping `0.5`). -/
theorem optimizedWallCollision_clamp_reflect_witness :
    optimizedWallCollision (-1) (-9/10) (-19/20) (19/20) (1/2) =
      (-19/20, -19/20 + (-1 - (-9/10)) * (1/2)) ∧
    optimizedWallCollision 1 (9/10) (-19/20) (19/20) (1/2) =
      (19/20, 19/20 + (1 - 9/10) * (1/2)) ∧
    optimizedWallCollision (1/2) (2/5) (-19/20) (19/20) (1/2) =
      (1/2, 2/5) := by
  refine ⟨?_, ?_, ?_⟩
  · exact (optimizedWallCollision_clamp_reflect (-1) (-9/10) (-19/20) (19/20) (1/2)).1
      (by norm_num)
  · exact (optimizedWallCollision_clamp_reflect 1 (9/10) (-19/20) (19/20) (1/2)).2.1
      (by norm_num) (by norm_num)
  · exact (optimizedWallCollision_clamp_reflect (1/2) (2/5) (-19/20) (19/20) (1/2)).2.2
      (by norm_num) (by norm_num)

/-- C8: on a wall bounce, `optimizedWallCollision` turns the implicit
velocity `pos - lastPos` into `-(pos - lastPos) * damping`; hence with
`damping = 1` its magnitude is preserved (sign flipped) and with
`damping = 0.5` its magnitude is halved — exactly, in the rational
model. -/
theorem optimizedWallCollision_damping_velocity
    (pos lastPos wallMin wallMax damping : ℚ)
    (hbounce : pos < wallMin ∨ pos > wallMax) :
    ((optimizedWallCollision pos lastPos wallMin wallMax damping).1 -
      (optimizedWallCollision pos lastPos wallMin wallMax damping).2 =
      -((pos - lastPos) * damping)) ∧
    (damping = 1 →
      |(optimizedWallCollision pos lastPos wallMin wallMax damping).1 -
        (optimizedWallCollision pos lastPos wallMin wallMax damping).2| =
      |pos - lastPos| ∧
      (optimizedWallCollision pos lastPos wallMin wallMax damping).1 -
        (optimizedWallCollision pos lastPos wallMin wallMax damping).2 =
      -(pos - lastPos)) ∧
    (damping = 1/2 →
      |(optimizedWallCollision pos lastPos wallMin wallMax damping).1 -
        (optimizedWallCollision pos lastPos wallMin wallMax damping).2| =
      |pos - lastPos| / 2) := by
  have hmain :
      (optimizedWallCollision pos lastPos wallMin wallMax damping).1 -
        (optimizedWallCollision pos lastPos wallMin wallMax damping).2 =
        -((pos - lastPos) * damping) := by
    rcases hbounce with h | h
    · simp [optimizedWallCollision, h]
    · rcases lt_or_ge pos wallMin with h' | h'
      · simp [optimizedWallCollision, h']
      · simp [optimizedWallCollision, not_lt_of_ge h', h]
  refine ⟨hmain, fun h1 => ⟨?_, ?_⟩, fun h2 => ?_⟩
  · rw [hmain, h1, mul_one, abs_neg]
  · rw [hmain, h1, mul_one]
  · rw [hmain, h2, abs_neg, abs_mul, abs_of_pos (by norm_num : (0:ℚ) < 1/2)]
    ring

/-- Witness for `optimizedWallCollision_damping_velocity`: a bounce off
the low wall with `damping = 1/2` halves the implicit-velocity
magnitude. -/
theorem optimizedWallCollision_damping_velocity_witness :
    |(optimizedWallCollision (-1) (-9/10) (-19/20) (19/20) (1/2)).1 -
      (optimizedWallCollision (-1) (-9/10) (-19/20) (19/20) (1/2)).2| =
    |(-1 : ℚ) - (-9/10)| / 2 :=
  (optimizedWallCollision_damping_velocity (-1) (-9/10) (-19/20) (19/20) (1/2)
    (Or.inl (by norm_num))).2.2 rfl

/-- C7: when the live circle count already equals `NUMCIRCLES`
(`remainingCirclesToSpawn = 0`), a spawn trigger is a no-op: the state —
all particle arrays and the count — is unchanged. -/
theorem spawnStep_cap_noop (s : SpawnState) (timerElapsed : Bool)
    (hfull : liveCircleCount s = NUMCIRCLES) :
    spawnStep s timerElapsed = s := by
  have hrem : s.remainingCirclesToSpawn = 0 := by
    have := hfull
    simp only [liveCircleCount] at this
    omega
  simp [spawnStep, hrem]

/-- Witness for `spawnStep_cap_noop`: a concrete full state. -/
theorem spawnStep_cap_noop_witness :
    spawnStep { positions := [0, 0], lastPositions := [0, 0],
                radiusColorData := [1/40, 1, 1, 1], acceleration := [0, -3],
                remainingCirclesToSpawn := 0 } true =
      { positions := [0, 0], lastPositions := [0, 0],
        radiusColorData := [1/40, 1, 1, 1], acceleration := [0, -3],
        remainingCirclesToSpawn := 0 } :=
  spawnStep_cap_noop _ true (by simp [liveCircleCount, NUMCIRCLES])

/-- The clamped position returned by `wallBounceAxis` stays between the
two walls whenever `wallLo ≤ wallHi`. -/
theorem wallBounceAxis_mem (wallLo wallHi pos lastPos : ℚ)
    (h : wallLo ≤ wallHi) :
    wallLo ≤ (wallBounceAxis wallLo wallHi pos lastPos).1 ∧
    (wallBounceAxis wallLo wallHi pos lastPos).1 ≤ wallHi := by
  unfold wallBounceAxis
  split_ifs with h1 h2
  · exact ⟨le_refl _, h⟩
  · exact ⟨h, le_refl _⟩
  · exact ⟨le_of_lt (not_le.mp h1), le_of_lt (not_le.mp h2)⟩

/-- Every particle produced by one `subStep` lies between the walls on
both axes. -/
theorem subStep_containment (dt wl wr wb wt : ℚ) (hx : wl ≤ wr)
    (hy : wb ≤ wt) (ps : List Particle) :
    ∀ p ∈ subStep dt wl wr wb wt ps,
      wl ≤ p.posX ∧ p.posX ≤ wr ∧ wb ≤ p.posY ∧ p.posY ≤ wt := by
  intro p hp
  simp only [subStep, List.mem_map] at hp
  obtain ⟨a, _, rfl⟩ := hp
  have hxb := wallBounceAxis_mem wl wr a.posX a.lastX hx
  have hyb := wallBounceAxis_mem wb wt a.posY a.lastY hy
  exact ⟨hxb.1, hxb.2, hyb.1, hyb.2⟩

/-- C3: after a full `simulationStep` (any number `k ≥ 1` of sub-steps,
each being integration followed by the wall-collision pass), every
particle's position lies within `[wallLeft, wallRight] × [wallBottom,
wallTop]`, the world edges inset by the radius. -/
theorem simulationStep_containment (k : ℕ) (hk : 1 ≤ k)
    (dt wl wr wb wt : ℚ) (hx : wl ≤ wr) (hy : wb ≤ wt)
    (ps : List Particle) :
    ∀ p ∈ simulationStep k dt wl wr wb wt ps,
      wl ≤ p.posX ∧ p.posX ≤ wr ∧ wb ≤ p.posY ∧ p.posY ≤ wt := by
  obtain ⟨j, rfl⟩ : ∃ j, k = j + 1 := ⟨k - 1, by omega⟩
  intro p hp
  rw [simulationStep, Function.iterate_succ_apply'] at hp
  exact subStep_containment dt wl wr wb wt hx hy _ p hp

/-- Witness for `simulationStep_containment`: a fast particle starting at
`x = 2` is clamped to the right wall `0.95` after one sub-step and is
inside the walls. -/
theorem simulationStep_containment_witness :
    (-19/20 : ℚ) ≤
        ({ posX := 19/20, posY := 0, lastX := -1/10, lastY := 0,
           accX := 0, accY := 0 } : Particle).posX ∧
      ({ posX := 19/20, posY := 0, lastX := -1/10, lastY := 0,
         accX := 0, accY := 0 } : Particle).posX ≤ 19/20 ∧
      (-19/20 : ℚ) ≤
        ({ posX := 19/20, posY := 0, lastX := -1/10, lastY := 0,
           accX := 0, accY := 0 } : Particle).posY ∧
      ({ posX := 19/20, posY := 0, lastX := -1/10, lastY := 0,
         accX := 0, accY := 0 } : Particle).posY ≤ 19/20 := by
  have hmem : ({ posX := 19/20, posY := 0, lastX := -1/10, lastY := 0,
                 accX := 0, accY := 0 } : Particle) ∈
      simulationStep 1 (1/60) (-19/20) (19/20) (-19/20) (19/20)
        [{ posX := 2, posY := 0, lastX := 0, lastY := 0,
           accX := 0, accY := 0 }] := by
    simp only [simulationStep, Function.iterate_one, subStep, List.map,
      verletStep, wallBounce, wallBounceAxis]
    norm_num
  exact simulationStep_containment 1 le_rfl (1/60) (-19/20) (19/20)
    (-19/20) (19/20) (by norm_num) (by norm_num) _ _ hmem

/-- C5 counterexample: the circle-to-circle collision block is commented
out, so a live sub-step does no collision resolution.  Two particles of
radius `0.05` placed `0.08` apart (at `x = ∓0.04`), at rest, with zero
acceleration, walls at `±0.95`: after one sub-step of the code both are
unchanged and their separation is still `0.08`, whose square `4/625`
differs from the claimed `0.1` squared. -/
theorem subStep_no_collision_counterexample :
    subStep (1/60) (-19/20) (19/20) (-19/20) (19/20)
      [{ posX := -1/25, posY := 0, lastX := -1/25, lastY := 0,
         accX := 0, accY := 0 },
       { posX := 1/25, posY := 0, lastX := 1/25, lastY := 0,
         accX := 0, accY := 0 }] =
      [{ posX := -1/25, posY := 0, lastX := -1/25, lastY := 0,
         accX := 0, accY := 0 },
       { posX := 1/25, posY := 0, lastX := 1/25, lastY := 0,
         accX := 0, accY := 0 }] ∧
    ((1/25 : ℚ) - (-1/25)) ^ 2 + ((0 : ℚ) - 0) ^ 2 = (2/25) ^ 2 ∧
    ((2/25 : ℚ)) ^ 2 ≠ (1/10) ^ 2 := by
  refine ⟨?_, by norm_num, by norm_num⟩
  simp only [subStep, List.map, verletStep, wallBounce, wallBounceAxis]
  norm_num

/-- C5 (amended): one pass of the commented-out collision block's
positional correction, applied to an overlapping non-coincident pair
whose distance is exactly representable (`dist > 0`,
`dist² = d² = dx² + dy²`, `1e-4 < d² < radiusSum²`), moves the particles
so that the new squared center distance equals exactly `radiusSum²`. -/
theorem resolveCollision_separates (xi yi xj yj radiusSum dist : ℚ)
    (hdist : 0 < dist)
    (hsq : dist ^ 2 = (xi - xj) ^ 2 + (yi - yj) ^ 2)
    (heps : 1/10000 < (xi - xj) ^ 2 + (yi - yj) ^ 2)
    (hover : (xi - xj) ^ 2 + (yi - yj) ^ 2 < radiusSum ^ 2) :
    ((resolveCollision xi yi xj yj radiusSum dist).1.1 -
      (resolveCollision xi yi xj yj radiusSum dist).2.1) ^ 2 +
    ((resolveCollision xi yi xj yj radiusSum dist).1.2 -
      (resolveCollision xi yi xj yj radiusSum dist).2.2) ^ 2 =
    radiusSum ^ 2 := by
  have hne : dist ≠ 0 := ne_of_gt hdist
  simp only [resolveCollision]
  have h1 : xi + (xi - xj) * (1/dist) * (radiusSum - dist) * (1/2) -
      (xj - (xi - xj) * (1/dist) * (radiusSum - dist) * (1/2)) =
      (xi - xj) * radiusSum / dist := by
    field_simp
    ring
  have h2 : yi + (yi - yj) * (1/dist) * (radiusSum - dist) * (1/2) -
      (yj - (yi - yj) * (1/dist) * (radiusSum - dist) * (1/2)) =
      (yi - yj) * radiusSum / dist := by
    field_simp
    ring
  rw [h1, h2]
  field_simp
  linear_combination (-1 : ℚ) * radiusSum ^ 2 * hsq

/-- Witness for `resolveCollision_separates`: radii `0.05`, centers
`0.08` apart on the x-axis; afterwards the squared distance is exactly
`0.1²` and the new positions `(∓0.05, 0)` are within the `±0.95`
walls. -/
theorem resolveCollision_separates_witness :
    (((resolveCollision (-1/25) 0 (1/25) 0 (1/10) (2/25)).1.1 -
        (resolveCollision (-1/25) 0 (1/25) 0 (1/10) (2/25)).2.1) ^ 2 +
      ((resolveCollision (-1/25) 0 (1/25) 0 (1/10) (2/25)).1.2 -
        (resolveCollision (-1/25) 0 (1/25) 0 (1/10) (2/25)).2.2) ^ 2 =
      (1/10 : ℚ) ^ 2) ∧
    resolveCollision (-1/25) 0 (1/25) 0 (1/10) (2/25) =
      ((-1/20, 0), (1/20, 0)) ∧
    ((-19/20 : ℚ) ≤ -1/20 ∧ (1/20 : ℚ) ≤ 19/20) := by
  refine ⟨resolveCollision_separates (-1/25) 0 (1/25) 0 (1/10) (2/25)
    (by norm_num) (by norm_num) (by norm_num) (by norm_num), ?_, by norm_num⟩
  simp only [resolveCollision]
  norm_num

/-! ## SpatialGrid (`src/src/SpatialGrid.h`) -/

/-- The integer interval `[lo, hi]` as a list, modelling a C++
`for (v = lo; v <= hi; v++)` loop index sequence. -/
def intRange (lo hi : ℤ) : List ℤ :=
  (List.range (hi + 1 - lo).toNat).map (fun (k : ℕ) => lo + (k : ℤ))

/-- The `SpatialGrid` class state, `src/src/SpatialGrid.h:6-11`. -/
structure SpatialGrid where
  cellSize : ℚ
  gridWidth : ℤ
  gridHeight : ℤ
  worldMinX : ℚ
  worldMinY : ℚ
  worldMaxX : ℚ
  worldMaxY : ℚ
  grid : List (List ℤ)
deriving DecidableEq, Repr

/-- The `SpatialGrid` constructor, `src/src/SpatialGrid.h:14-20`:
`gridWidth = int((maxX-minX)/cellSize) + 1` (and similarly for height),
then `grid.resize(gridWidth * gridHeight)` — with no validation of the
arguments.  The implicit int-to-`size_t` conversion of the resize
argument is modelled by `Int.toNat` (faithful whenever the product is
non-negative). -/
def SpatialGrid.build (cellSize minX minY maxX maxY : ℚ) : SpatialGrid :=
  let gridWidth := cppTrunc ((maxX - minX) / cellSize) + 1
  let gridHeight := cppTrunc ((maxY - minY) / cellSize) + 1
  { cellSize := cellSize, gridWidth := gridWidth, gridHeight := gridHeight,
    worldMinX := minX, worldMinY := minY, worldMaxX := maxX,
    worldMaxY := maxY,
    grid := List.replicate (gridWidth * gridHeight).toNat [] }

/-- The clamp `std::max(0, std::min(v, gridWidth - 1))`, `src/src/SpatialGrid.h:33`. -/
def SpatialGrid.clampX (g : SpatialGrid) (v : ℤ) : ℤ :=
  max 0 (min v (g.gridWidth - 1))

/-- The clamp `std::max(0, std::min(v, gridHeight - 1))`, `src/src/SpatialGrid.h:34`. -/
def SpatialGrid.clampY (g : SpatialGrid) (v : ℤ) : ℤ :=
  max 0 (min v (g.gridHeight - 1))

/-- The clamped grid x-coordinate `static_cast<int>((x - worldMinX) /
cellSize)` of `src/src/SpatialGrid.h:29,33`. -/
def SpatialGrid.gridXof (g : SpatialGrid) (x : ℚ) : ℤ :=
  g.clampX (cppTrunc ((x - g.worldMinX) / g.cellSize))

/-- The clamped grid y-coordinate, `src/src/SpatialGrid.h:30,34`. -/
def SpatialGrid.gridYof (g : SpatialGrid) (y : ℚ) : ℤ :=
  g.clampY (cppTrunc ((y - g.worldMinY) / g.cellSize))

/-- The index `cellIndex = gridY * gridWidth + gridX`, `src/src/SpatialGrid.h:36`. -/
def SpatialGrid.cellIndexOf (g : SpatialGrid) (x y : ℚ) : ℤ :=
  g.gridYof y * g.gridWidth + g.gridXof x

/-- Method `SpatialGrid::clear`, `src/src/SpatialGrid.h:22-26`: empties every
bucket. -/
def SpatialGrid.clear (g : SpatialGrid) : SpatialGrid :=
  { g with grid := g.grid.map (fun _ => []) }

/-- Method `SpatialGrid::addParticle`, `src/src/SpatialGrid.h:28-38`: computes
the clamped cell of `(x, y)` and appends `particleIndex` to that cell's
bucket. -/
def SpatialGrid.addParticle (g : SpatialGrid) (particleIndex : ℤ)
    (x y : ℚ) : SpatialGrid :=
  let cellIndex := g.cellIndexOf x y
  let bucket := (g.grid.getD cellIndex.toNat []) ++ [particleIndex]
  { g with grid := g.grid.set cellIndex.toNat bucket }

/-- Method `SpatialGrid::getNearbyParticles`, `src/src/SpatialGrid.h:40-66`:
collects, in loop order, the buckets of all cells in the clamped
rectangle of cells touched by the square of half-width `radius` around
`(x, y)`.  (`x - radius - worldMinX` is `(x - radius) - worldMinX`, so
the four clamped loop bounds are `gridXof`/`gridYof` of `x ∓ radius`,
`y ∓ radius`.) -/
def SpatialGrid.getNearbyParticles (g : SpatialGrid) (x y radius : ℚ) :
    List ℤ :=
  (intRange (g.gridYof (y - radius)) (g.gridYof (y + radius))).flatMap
    (fun gy =>
      (intRange (g.gridXof (x - radius)) (g.gridXof (x + radius))).flatMap
        (fun gx => g.grid.getD (gy * g.gridWidth + gx).toNat []))

/-- Sequential insertion of a list of `(index, x, y)` triples. -/
def addAll (g : SpatialGrid) (l : List (ℤ × ℚ × ℚ)) : SpatialGrid :=
  l.foldl (fun h e => h.addParticle e.1 e.2.1 e.2.2) g

/-- Well-formedness of a grid as produced by a valid construction: at
least one cell in each direction and a backing vector of exactly
`gridWidth * gridHeight` buckets. -/
def SpatialGrid.Wf (g : SpatialGrid) : Prop :=
  1 ≤ g.gridWidth ∧ 1 ≤ g.gridHeight ∧
    g.grid.length = (g.gridWidth * g.gridHeight).toNat

/-! ### Basic lemmas about the grid arithmetic -/

theorem cppTrunc_nonneg {q : ℚ} (h : 0 ≤ q) : 0 ≤ cppTrunc q := by
  unfold cppTrunc
  rw [if_neg (not_lt.mpr h)]
  exact Int.floor_nonneg.mpr h

theorem cppTrunc_mono {q r : ℚ} (h : q ≤ r) : cppTrunc q ≤ cppTrunc r := by
  unfold cppTrunc
  by_cases hq : q < 0
  · by_cases hr : r < 0
    · rw [if_pos hq, if_pos hr]
      exact Int.ceil_mono h
    · rw [if_pos hq, if_neg hr]
      have h1 : ⌈q⌉ ≤ 0 := Int.ceil_le.mpr (by exact_mod_cast hq.le)
      have h2 : (0 : ℤ) ≤ ⌊r⌋ := Int.floor_nonneg.mpr (not_lt.mp hr)
      omega
  · have hr : ¬ r < 0 := fun hc => hq (lt_of_le_of_lt h hc)
    rw [if_neg hq, if_neg hr]
    exact Int.floor_mono h

theorem mem_intRange {lo hi v : ℤ} : v ∈ intRange lo hi ↔ lo ≤ v ∧ v ≤ hi := by
  unfold intRange
  constructor
  · intro hv
    obtain ⟨k, hk, hkv⟩ := List.mem_map.mp hv
    rw [List.mem_range] at hk
    omega
  · intro hv
    refine List.mem_map.mpr ⟨(v - lo).toNat, ?_, ?_⟩
    · rw [List.mem_range]
      omega
    · omega

theorem intRange_nodup (lo hi : ℤ) : (intRange lo hi).Nodup := by
  unfold intRange
  apply List.Nodup.map
  · intro a b hab
    have h2 : lo + (a : ℤ) = lo + (b : ℤ) := hab
    omega
  · exact List.nodup_range _

/-! ### Field preservation and well-formedness -/

theorem SpatialGrid.addParticle_gridWidth (g : SpatialGrid) (i : ℤ)
    (x y : ℚ) : (g.addParticle i x y).gridWidth = g.gridWidth := rfl

theorem SpatialGrid.addParticle_gridXof (g : SpatialGrid) (i : ℤ)
    (x y a : ℚ) : (g.addParticle i x y).gridXof a = g.gridXof a := rfl

theorem SpatialGrid.addParticle_gridYof (g : SpatialGrid) (i : ℤ)
    (x y a : ℚ) : (g.addParticle i x y).gridYof a = g.gridYof a := rfl

theorem SpatialGrid.addParticle_cellIndexOf (g : SpatialGrid) (i : ℤ)
    (x y a b : ℚ) : (g.addParticle i x y).cellIndexOf a b = g.cellIndexOf a b :=
  rfl

theorem SpatialGrid.addParticle_length (g : SpatialGrid) (i : ℤ) (x y : ℚ) :
    (g.addParticle i x y).grid.length = g.grid.length := by
  simp [SpatialGrid.addParticle]

theorem SpatialGrid.addParticle_wf {g : SpatialGrid} (hwf : g.Wf) (i : ℤ)
    (x y : ℚ) : (g.addParticle i x y).Wf :=
  ⟨hwf.1, hwf.2.1, by rw [SpatialGrid.addParticle_length]; exact hwf.2.2⟩

theorem SpatialGrid.clear_wf {g : SpatialGrid} (hwf : g.Wf) : g.clear.Wf := by
  refine ⟨hwf.1, hwf.2.1, ?_⟩
  simpa [SpatialGrid.clear] using hwf.2.2

theorem SpatialGrid.build_wf (cellSize minX minY maxX maxY : ℚ)
    (hcs : 0 < cellSize) (hx : minX ≤ maxX) (hy : minY ≤ maxY) :
    (SpatialGrid.build cellSize minX minY maxX maxY).Wf := by
  have hw : 0 ≤ cppTrunc ((maxX - minX) / cellSize) :=
    cppTrunc_nonneg (div_nonneg (by linarith) hcs.le)
  have hh : 0 ≤ cppTrunc ((maxY - minY) / cellSize) :=
    cppTrunc_nonneg (div_nonneg (by linarith) hcs.le)
  refine ⟨by simpa [SpatialGrid.build] using hw,
    by simpa [SpatialGrid.build] using hh, ?_⟩
  simp [SpatialGrid.build]

theorem addAll_gridWidth (g : SpatialGrid) (l : List (ℤ × ℚ × ℚ)) :
    (addAll g l).gridWidth = g.gridWidth := by
  induction l generalizing g with
  | nil => rfl
  | cons e t ih => simpa [addAll] using ih (g.addParticle e.1 e.2.1 e.2.2)

theorem addAll_gridXof (g : SpatialGrid) (l : List (ℤ × ℚ × ℚ)) (a : ℚ) :
    (addAll g l).gridXof a = g.gridXof a := by
  induction l generalizing g with
  | nil => rfl
  | cons e t ih => simpa [addAll] using ih (g.addParticle e.1 e.2.1 e.2.2)

theorem addAll_gridYof (g : SpatialGrid) (l : List (ℤ × ℚ × ℚ)) (a : ℚ) :
    (addAll g l).gridYof a = g.gridYof a := by
  induction l generalizing g with
  | nil => rfl
  | cons e t ih => simpa [addAll] using ih (g.addParticle e.1 e.2.1 e.2.2)

theorem addAll_cellIndexOf (g : SpatialGrid) (l : List (ℤ × ℚ × ℚ))
    (a b : ℚ) : (addAll g l).cellIndexOf a b = g.cellIndexOf a b := by
  induction l generalizing g with
  | nil => rfl
  | cons e t ih => simpa [addAll] using ih (g.addParticle e.1 e.2.1 e.2.2)

theorem addAll_length (g : SpatialGrid) (l : List (ℤ × ℚ × ℚ)) :
    (addAll g l).grid.length = g.grid.length := by
  induction l generalizing g with
  | nil => rfl
  | cons e t ih =>
    simpa [addAll, SpatialGrid.addParticle_length] using
      ih (g.addParticle e.1 e.2.1 e.2.2)

theorem addAll_wf {g : SpatialGrid} (hwf : g.Wf) (l : List (ℤ × ℚ × ℚ)) :
    (addAll g l).Wf := by
  induction l generalizing g with
  | nil => exact hwf
  | cons e t ih => exact ih (SpatialGrid.addParticle_wf hwf e.1 e.2.1 e.2.2)

/-! ### Cell-coordinate bounds and monotonicity -/

theorem SpatialGrid.gridXof_bounds (g : SpatialGrid) (hw : 1 ≤ g.gridWidth)
    (x : ℚ) : 0 ≤ g.gridXof x ∧ g.gridXof x ≤ g.gridWidth - 1 := by
  unfold SpatialGrid.gridXof SpatialGrid.clampX
  omega

theorem SpatialGrid.gridYof_bounds (g : SpatialGrid) (hh : 1 ≤ g.gridHeight)
    (y : ℚ) : 0 ≤ g.gridYof y ∧ g.gridYof y ≤ g.gridHeight - 1 := by
  unfold SpatialGrid.gridYof SpatialGrid.clampY
  omega

theorem SpatialGrid.gridXof_mono (g : SpatialGrid) (hcs : 0 < g.cellSize)
    {a b : ℚ} (h : a ≤ b) : g.gridXof a ≤ g.gridXof b := by
  unfold SpatialGrid.gridXof SpatialGrid.clampX
  have ht : cppTrunc ((a - g.worldMinX) / g.cellSize) ≤
      cppTrunc ((b - g.worldMinX) / g.cellSize) :=
    cppTrunc_mono ((div_le_div_iff_of_pos_right hcs).mpr (by linarith))
  omega

theorem SpatialGrid.gridYof_mono (g : SpatialGrid) (hcs : 0 < g.cellSize)
    {a b : ℚ} (h : a ≤ b) : g.gridYof a ≤ g.gridYof b := by
  unfold SpatialGrid.gridYof SpatialGrid.clampY
  have ht : cppTrunc ((a - g.worldMinY) / g.cellSize) ≤
      cppTrunc ((b - g.worldMinY) / g.cellSize) :=
    cppTrunc_mono ((div_le_div_iff_of_pos_right hcs).mpr (by linarith))
  omega

theorem SpatialGrid.cellIndexOf_bounds (g : SpatialGrid) (hwf : g.Wf)
    (x y : ℚ) :
    0 ≤ g.cellIndexOf x y ∧ (g.cellIndexOf x y).toNat < g.grid.length := by
  obtain ⟨hw, hh, hl⟩ := hwf
  obtain ⟨hx0, hx1⟩ := g.gridXof_bounds hw x
  obtain ⟨hy0, hy1⟩ := g.gridYof_bounds hh y
  unfold SpatialGrid.cellIndexOf
  have h1 : 0 ≤ g.gridYof y * g.gridWidth :=
    mul_nonneg hy0 (by omega)
  have h2 : g.gridYof y * g.gridWidth ≤ (g.gridHeight - 1) * g.gridWidth :=
    mul_le_mul_of_nonneg_right hy1 (by omega)
  have h3 : (g.gridHeight - 1) * g.gridWidth =
      g.gridWidth * g.gridHeight - g.gridWidth := by ring
  rw [hl]
  omega

/-! ### `getD`/`set` interaction and bucket membership -/

theorem getD_set {α : Type} (l : List α) (n m : ℕ) (v d : α) :
    (l.set n v).getD m d =
      if m = n ∧ n < l.length then v else l.getD m d := by
  induction l generalizing n m with
  | nil => simp
  | cons b t ih =>
    cases n with
    | zero =>
      cases m with
      | zero => simp
      | succ m' => simp
    | succ n' =>
      cases m with
      | zero => simp [List.set]
      | succ m' =>
        simp only [List.set, List.getD_cons_succ, List.length_cons, ih n' m']
        by_cases h1 : m' = n' ∧ n' < t.length
        · rw [if_pos h1, if_pos ⟨by omega, by omega⟩]
        · rw [if_neg h1, if_neg (by omega)]

theorem SpatialGrid.addParticle_cellSize (g : SpatialGrid) (i : ℤ)
    (x y : ℚ) : (g.addParticle i x y).cellSize = g.cellSize := rfl

theorem addAll_cellSize (g : SpatialGrid) (l : List (ℤ × ℚ × ℚ)) :
    (addAll g l).cellSize = g.cellSize := by
  induction l generalizing g with
  | nil => rfl
  | cons e t ih => simpa [addAll] using ih (g.addParticle e.1 e.2.1 e.2.2)

theorem mem_getD_addParticle_self (g : SpatialGrid) (hwf : g.Wf) (i : ℤ)
    (x y : ℚ) :
    i ∈ (g.addParticle i x y).grid.getD (g.cellIndexOf x y).toNat [] := by
  have hb := (g.cellIndexOf_bounds hwf x y).2
  unfold SpatialGrid.addParticle
  rw [getD_set, if_pos ⟨rfl, hb⟩]
  exact List.mem_append_right _ (by simp)

theorem mem_getD_addParticle_mono (g : SpatialGrid) (i : ℤ) (x y : ℚ)
    (j : ℤ) (n : ℕ) (h : j ∈ g.grid.getD n []) :
    j ∈ (g.addParticle i x y).grid.getD n [] := by
  unfold SpatialGrid.addParticle
  rw [getD_set]
  by_cases hc : n = (g.cellIndexOf x y).toNat ∧
      (g.cellIndexOf x y).toNat < g.grid.length
  · rw [if_pos hc]
    exact List.mem_append_left _ (hc.1 ▸ h)
  · rw [if_neg hc]
    exact h

theorem mem_getD_addAll_mono (g : SpatialGrid) (l : List (ℤ × ℚ × ℚ))
    (j : ℤ) (n : ℕ) (h : j ∈ g.grid.getD n []) :
    j ∈ (addAll g l).grid.getD n [] := by
  induction l generalizing g with
  | nil => exact h
  | cons e t ih =>
    exact ih (g.addParticle e.1 e.2.1 e.2.2)
      (mem_getD_addParticle_mono g e.1 e.2.1 e.2.2 j n h)

theorem mem_addAll_of_mem (g : SpatialGrid) (hwf : g.Wf)
    (l : List (ℤ × ℚ × ℚ)) (j : ℤ) (px py : ℚ) (hj : (j, px, py) ∈ l) :
    j ∈ (addAll g l).grid.getD (g.cellIndexOf px py).toNat [] := by
  induction l generalizing g with
  | nil => cases hj
  | cons e t ih =>
    rcases List.mem_cons.mp hj with he | hj2
    · subst he
      exact mem_getD_addAll_mono (g.addParticle j px py) t j _
        (mem_getD_addParticle_self g hwf j px py)
    · have hidx : (g.addParticle e.1 e.2.1 e.2.2).cellIndexOf px py =
          g.cellIndexOf px py := rfl
      have := ih (g.addParticle e.1 e.2.1 e.2.2)
        (SpatialGrid.addParticle_wf hwf e.1 e.2.1 e.2.2) hj2
      rw [hidx] at this
      exact this

theorem mem_getNearbyParticles_of_cell (g : SpatialGrid)
    (hcs : 0 < g.cellSize) (x y r px py : ℚ) (j : ℤ)
    (hdx : |px - x| ≤ r) (hdy : |py - y| ≤ r)
    (hj : j ∈ g.grid.getD (g.cellIndexOf px py).toNat []) :
    j ∈ g.getNearbyParticles x y r := by
  obtain ⟨hdx1, hdx2⟩ := abs_le.mp hdx
  obtain ⟨hdy1, hdy2⟩ := abs_le.mp hdy
  unfold SpatialGrid.getNearbyParticles
  apply List.mem_flatMap.mpr
  refine ⟨g.gridYof py, ?_, ?_⟩
  · rw [mem_intRange]
    exact ⟨g.gridYof_mono hcs (by linarith), g.gridYof_mono hcs (by linarith)⟩
  · apply List.mem_flatMap.mpr
    refine ⟨g.gridXof px, ?_, ?_⟩
    · rw [mem_intRange]
      exact ⟨g.gridXof_mono hcs (by linarith), g.gridXof_mono hcs (by linarith)⟩
    · exact hj

/-- C4: a particle `j` inserted at `(px, py)` since the last clear is
always returned by `getNearbyParticles (x, y, queryRadius)` whenever
`(px, py)` lies in the query's bounding square
(`|px - x| ≤ queryRadius`, `|py - y| ≤ queryRadius`), for a grid built
with `cellSize ≥ 2*maxRadius > 0` on a non-degenerate world: no false
negatives. -/
theorem getNearbyParticles_no_false_negative
    (cellSize minX minY maxX maxY maxRadius : ℚ)
    (hrad : 0 < maxRadius) (hcell : 2 * maxRadius ≤ cellSize)
    (hx : minX ≤ maxX) (hy : minY ≤ maxY)
    (l : List (ℤ × ℚ × ℚ)) (j : ℤ) (px py x y queryRadius : ℚ)
    (hj : (j, px, py) ∈ l)
    (hdx : |px - x| ≤ queryRadius) (hdy : |py - y| ≤ queryRadius) :
    j ∈ (addAll (SpatialGrid.build cellSize minX minY maxX maxY)
          l).getNearbyParticles x y queryRadius := by
  have hcs : 0 < cellSize := by linarith
  have hwf0 : (SpatialGrid.build cellSize minX minY maxX maxY).Wf :=
    SpatialGrid.build_wf cellSize minX minY maxX maxY hcs hx hy
  apply mem_getNearbyParticles_of_cell _
    (by rw [addAll_cellSize]; exact hcs) x y queryRadius px py j hdx hdy
  rw [addAll_cellIndexOf]
  exact mem_addAll_of_mem _ hwf0 l j px py hj

/-- Witness for `getNearbyParticles_no_false_negative`: grid on
`[-1,1]²` with cell size `1`, particle `5` at `(0.6, 0.6)`, query at
`(0.5, 0.5)` with radius `0.2`. -/
theorem getNearbyParticles_no_false_negative_witness :
    (5 : ℤ) ∈ (addAll (SpatialGrid.build 1 (-1) (-1) 1 1)
        [(5, 3/5, 3/5)]).getNearbyParticles (1/2) (1/2) (1/5) :=
  getNearbyParticles_no_false_negative 1 (-1) (-1) 1 1 (1/2)
    (by norm_num) (by norm_num) (by norm_num) (by norm_num)
    [(5, 3/5, 3/5)] 5 (3/5) (3/5) (1/2) (1/2) (1/5)
    (by simp) (by rw [abs_le]; constructor <;> norm_num)
    (by rw [abs_le]; constructor <;> norm_num)

theorem cell_linear_bounds (g : SpatialGrid) (hwf : g.Wf) {gy gx : ℤ}
    (hgy0 : 0 ≤ gy) (hgy1 : gy ≤ g.gridHeight - 1)
    (hgx0 : 0 ≤ gx) (hgx1 : gx ≤ g.gridWidth - 1) :
    0 ≤ gy * g.gridWidth + gx ∧
      (gy * g.gridWidth + gx).toNat < g.grid.length := by
  obtain ⟨hw, hh, hl⟩ := hwf
  have h1 : 0 ≤ gy * g.gridWidth := mul_nonneg hgy0 (by omega)
  have h2 : gy * g.gridWidth ≤ (g.gridHeight - 1) * g.gridWidth :=
    mul_le_mul_of_nonneg_right hgy1 (by omega)
  have h3 : (g.gridHeight - 1) * g.gridWidth =
      g.gridWidth * g.gridHeight - g.gridWidth := by ring
  rw [hl]
  omega

/-- C9: on a grid constructed with `cellSize > 0` and non-degenerate
world bounds (after any sequence of insertions), for every finite input
coordinate — inside or outside the world — the clamped cell index used
by `addParticle` is within the backing vector, `addParticle` leaves the
vector length unchanged, and every cell index scanned by
`getNearbyParticles` is within the vector: both operations are total. -/
theorem spatialGrid_access_in_bounds
    (cellSize minX minY maxX maxY : ℚ)
    (hcs : 0 < cellSize) (hx : minX < maxX) (hy : minY < maxY)
    (l : List (ℤ × ℚ × ℚ)) (x y r : ℚ) (i : ℤ) :
    (0 ≤ (addAll (SpatialGrid.build cellSize minX minY maxX maxY)
          l).cellIndexOf x y ∧
      ((addAll (SpatialGrid.build cellSize minX minY maxX maxY)
          l).cellIndexOf x y).toNat <
        (addAll (SpatialGrid.build cellSize minX minY maxX maxY)
          l).grid.length) ∧
    ((addAll (SpatialGrid.build cellSize minX minY maxX maxY)
        l).addParticle i x y).grid.length =
      (addAll (SpatialGrid.build cellSize minX minY maxX maxY)
        l).grid.length ∧
    (∀ gy gx : ℤ,
      gy ∈ intRange
        ((addAll (SpatialGrid.build cellSize minX minY maxX maxY)
          l).gridYof (y - r))
        ((addAll (SpatialGrid.build cellSize minX minY maxX maxY)
          l).gridYof (y + r)) →
      gx ∈ intRange
        ((addAll (SpatialGrid.build cellSize minX minY maxX maxY)
          l).gridXof (x - r))
        ((addAll (SpatialGrid.build cellSize minX minY maxX maxY)
          l).gridXof (x + r)) →
      0 ≤ gy * (addAll (SpatialGrid.build cellSize minX minY maxX maxY)
          l).gridWidth + gx ∧
        (gy * (addAll (SpatialGrid.build cellSize minX minY maxX maxY)
            l).gridWidth + gx).toNat <
          (addAll (SpatialGrid.build cellSize minX minY maxX maxY)
            l).grid.length) := by
  have hwf : (addAll (SpatialGrid.build cellSize minX minY maxX maxY) l).Wf :=
    addAll_wf
      (SpatialGrid.build_wf cellSize minX minY maxX maxY hcs hx.le hy.le) l
  refine ⟨SpatialGrid.cellIndexOf_bounds _ hwf x y,
    SpatialGrid.addParticle_length _ i x y, ?_⟩
  intro gy gx hgy hgx
  have hwid := hwf.1
  have hhei := hwf.2.1
  obtain ⟨hgy1, hgy2⟩ := mem_intRange.mp hgy
  obtain ⟨hgx1, hgx2⟩ := mem_intRange.mp hgx
  have hb1 := SpatialGrid.gridYof_bounds _ hhei (y - r)
  have hb2 := SpatialGrid.gridYof_bounds _ hhei (y + r)
  have hb3 := SpatialGrid.gridXof_bounds _ hwid (x - r)
  have hb4 := SpatialGrid.gridXof_bounds _ hwid (x + r)
  exact cell_linear_bounds _ hwf (by omega) (by omega) (by omega) (by omega)

/-- Witness for `spatialGrid_access_in_bounds`: grid on `[-1,1]²` with
cell size `1`, probing the far out-of-world point `(5, -4.5)` with query
radius `1`. -/
theorem spatialGrid_access_in_bounds_witness :
    (0 ≤ (addAll (SpatialGrid.build 1 (-1) (-1) 1 1) []).cellIndexOf 5 (-9/2) ∧
      ((addAll (SpatialGrid.build 1 (-1) (-1) 1 1) []).cellIndexOf 5
          (-9/2)).toNat <
        (addAll (SpatialGrid.build 1 (-1) (-1) 1 1) []).grid.length) ∧
    ((addAll (SpatialGrid.build 1 (-1) (-1) 1 1) []).addParticle 7 5
        (-9/2)).grid.length =
      (addAll (SpatialGrid.build 1 (-1) (-1) 1 1) []).grid.length ∧
    (0 ≤ (0 : ℤ) * (addAll (SpatialGrid.build 1 (-1) (-1) 1 1) []).gridWidth
        + 2 ∧
      ((0 : ℤ) * (addAll (SpatialGrid.build 1 (-1) (-1) 1 1)
          []).gridWidth + 2).toNat <
        (addAll (SpatialGrid.build 1 (-1) (-1) 1 1) []).grid.length) := by
  have h := spatialGrid_access_in_bounds 1 (-1) (-1) 1 1 (by norm_num)
    (by norm_num) (by norm_num) [] 5 (-9/2) 1 7
  have hc1 : (⌈(-(9 / 2) : ℚ)⌉ : ℤ) = -4 := by
    rw [Int.ceil_eq_iff]
    norm_num
  have hc2 : (⌈(-(5 / 2) : ℚ)⌉ : ℤ) = -2 := by
    rw [Int.ceil_eq_iff]
    norm_num
  refine ⟨h.1, h.2.1, h.2.2 0 2 ?_ ?_⟩
  · rw [mem_intRange]
    norm_num [addAll, SpatialGrid.build, SpatialGrid.gridYof,
      SpatialGrid.clampY, cppTrunc, hc1, hc2]
  · rw [mem_intRange]
    norm_num [addAll, SpatialGrid.build, SpatialGrid.gridXof,
      SpatialGrid.clampX, cppTrunc]

/-- C6 counterexample: the `SpatialGrid` constructor performs no
validation.  Built with `cellSize = -1` on world `[-1,1]²` — an invalid
configuration (`cellSize ≤ 0`) — it does not fail: it produces a grid
(with `gridWidth = -1` and a single bucket) that `addParticle` and
`getNearbyParticles` then use without error, the query even returning
the inserted particle. -/
theorem spatialGrid_invalid_config_counterexample :
    (SpatialGrid.build (-1) (-1) (-1) 1 1).gridWidth = -1 ∧
    (SpatialGrid.build (-1) (-1) (-1) 1 1).grid.length = 1 ∧
    ((SpatialGrid.build (-1) (-1) (-1) 1 1).addParticle 7 0
        0).getNearbyParticles 0 0 (1/10) = [7] := by
  have hc1 : (⌈(-2 : ℚ)⌉ : ℤ) = -2 := by
    rw [Int.ceil_eq_iff]
    constructor <;> norm_num
  have hc2 : (⌈(-1 : ℚ)⌉ : ℤ) = -1 := by
    rw [Int.ceil_eq_iff]
    constructor <;> norm_num
  have hc3 : (⌈(-(9/10) : ℚ)⌉ : ℤ) = 0 := by
    rw [Int.ceil_eq_iff]
    constructor <;> norm_num
  have hc4 : (⌈(-(11/10) : ℚ)⌉ : ℤ) = -1 := by
    rw [Int.ceil_eq_iff]
    constructor <;> norm_num
  refine ⟨?_, ?_, ?_⟩
  · norm_num [SpatialGrid.build, cppTrunc, hc1]
  · norm_num [SpatialGrid.build, cppTrunc, hc1]
  · norm_num [SpatialGrid.build, SpatialGrid.addParticle,
      SpatialGrid.getNearbyParticles, SpatialGrid.cellIndexOf,
      SpatialGrid.gridXof, SpatialGrid.gridYof, SpatialGrid.clampX,
      SpatialGrid.clampY, cppTrunc, intRange, hc1, hc2, hc3, hc4,
      List.replicate]
    decide

/-- C6 (amended): construction with `cellSize ≤ 0` or `maxX ≤ minX` is
not rejected: the constructor always applies the same size formulas with
no validity check, and the invalid configuration `cellSize = -1`,
world `[-1,1]²` is silently coerced into a usable one-bucket grid on
which insertion and query work normally. -/
theorem spatialGrid_build_no_validation (cellSize minX minY maxX maxY : ℚ) :
    (SpatialGrid.build cellSize minX minY maxX maxY).gridWidth =
      cppTrunc ((maxX - minX) / cellSize) + 1 ∧
    (SpatialGrid.build cellSize minX minY maxX maxY).gridHeight =
      cppTrunc ((maxY - minY) / cellSize) + 1 ∧
    (SpatialGrid.build cellSize minX minY maxX maxY).grid.length =
      ((cppTrunc ((maxX - minX) / cellSize) + 1) *
        (cppTrunc ((maxY - minY) / cellSize) + 1)).toNat ∧
    ((SpatialGrid.build (-1) (-1) (-1) 1 1).addParticle 8 0
        0).getNearbyParticles 0 0 (1/10) = [8] := by
  refine ⟨rfl, rfl, by simp [SpatialGrid.build], ?_⟩
  have hc1 : (⌈(-2 : ℚ)⌉ : ℤ) = -2 := by
    rw [Int.ceil_eq_iff]
    constructor <;> norm_num
  have hc2 : (⌈(-1 : ℚ)⌉ : ℤ) = -1 := by
    rw [Int.ceil_eq_iff]
    constructor <;> norm_num
  have hc3 : (⌈(-(9/10) : ℚ)⌉ : ℤ) = 0 := by
    rw [Int.ceil_eq_iff]
    constructor <;> norm_num
  have hc4 : (⌈(-(11/10) : ℚ)⌉ : ℤ) = -1 := by
    rw [Int.ceil_eq_iff]
    constructor <;> norm_num
  norm_num [SpatialGrid.build, SpatialGrid.addParticle,
    SpatialGrid.getNearbyParticles, SpatialGrid.cellIndexOf,
    SpatialGrid.gridXof, SpatialGrid.gridYof, SpatialGrid.clampX,
    SpatialGrid.clampY, cppTrunc, intRange, hc1, hc2, hc3, hc4,
    List.replicate]
  decide

/-! ### Occurrence counting for the duplicate-freeness of queries -/

theorem count_flatten_set_append (G : List (List ℤ)) (n : ℕ) (i j : ℤ) :
    ((G.set n ((G.getD n []) ++ [i])).flatten).count j ≤
      (G.flatten).count j + (if j = i then 1 else 0) := by
  induction G generalizing n with
  | nil => simp
  | cons b t ih =>
    cases n with
    | zero =>
      simp only [List.getD_cons_zero, List.set_cons_zero, List.flatten_cons,
        List.count_append]
      have hsing : ([i].count j) = if j = i then 1 else 0 := by
        simp [List.count_singleton]
        split_ifs with hc1 hc2 hc2 <;> omega
      omega
    | succ m =>
      simp only [List.getD_cons_succ, List.set_cons_succ, List.flatten_cons,
        List.count_append]
      have := ih m
      omega

theorem addParticle_count (g : SpatialGrid) (i : ℤ) (x y : ℚ) (j : ℤ) :
    ((g.addParticle i x y).grid.flatten).count j ≤
      (g.grid.flatten).count j + (if j = i then 1 else 0) :=
  count_flatten_set_append g.grid (g.cellIndexOf x y).toNat i j

theorem addAll_count (g : SpatialGrid) (l : List (ℤ × ℚ × ℚ)) (j : ℤ) :
    ((addAll g l).grid.flatten).count j ≤
      (g.grid.flatten).count j + (l.map (fun e => e.1)).count j := by
  induction l generalizing g with
  | nil => simp [addAll]
  | cons e t ih =>
    have h1 := ih (g.addParticle e.1 e.2.1 e.2.2)
    have h2 := addParticle_count g e.1 e.2.1 e.2.2 j
    have h3 : ((e :: t).map (fun e => e.1)).count j =
        (t.map (fun e => e.1)).count j + (if j = e.1 then 1 else 0) := by
      simp [List.count_cons]
      split_ifs with hc1 hc2 hc2 <;> omega
    have h4 : addAll g (e :: t) = addAll (g.addParticle e.1 e.2.1 e.2.2) t :=
      rfl
    rw [h4, h3]
    omega

theorem clear_flatten (g : SpatialGrid) : g.clear.grid.flatten = [] := by
  simp only [SpatialGrid.clear, List.flatten_eq_nil_iff]
  intro l hl
  obtain ⟨a, _, rfl⟩ := List.mem_map.mp hl
  rfl

theorem count_flatten_eq_sum (G : List (List ℤ)) (j : ℤ) :
    (G.flatten).count j =
      ((List.range G.length).map (fun k => (G.getD k []).count j)).sum := by
  induction G with
  | nil => simp
  | cons b t ih =>
    rw [List.flatten_cons, List.count_append, List.length_cons,
      List.range_succ_eq_map]
    simp only [List.map_cons, List.getD_cons_zero, List.map_map,
      List.sum_cons]
    rw [ih]
    rfl

theorem sum_map_nodup_le (I : List ℕ) (hI : I.Nodup) (n : ℕ)
    (hb : ∀ k ∈ I, k < n) (f : ℕ → ℕ) :
    (I.map f).sum ≤ ((List.range n).map f).sum := by
  have h1 : (I.map f).sum = I.toFinset.sum f := (List.sum_toFinset f hI).symm
  have h2 : ((List.range n).map f).sum = (List.range n).toFinset.sum f :=
    (List.sum_toFinset f (List.nodup_range n)).symm
  rw [h1, h2]
  apply Finset.sum_le_sum_of_subset
  intro k hk
  rw [List.mem_toFinset] at hk ⊢
  rw [List.mem_range]
  exact hb k hk

theorem sum_map_flatMap {α β : Type} (l : List α) (F : α → List β)
    (f : β → ℕ) :
    ((l.flatMap F).map f).sum = (l.map (fun a => ((F a).map f).sum)).sum := by
  induction l with
  | nil => rfl
  | cons a t ih =>
    simp [List.flatMap_cons, List.map_append, List.sum_append, ih]

/-- The list of bucket indices scanned by `getNearbyParticles`, in loop
order. -/
def queryCells (g : SpatialGrid) (x y r : ℚ) : List ℕ :=
  (intRange (g.gridYof (y - r)) (g.gridYof (y + r))).flatMap
    (fun gy => (intRange (g.gridXof (x - r)) (g.gridXof (x + r))).map
      (fun gx => (gy * g.gridWidth + gx).toNat))

theorem getNearbyParticles_count_eq (g : SpatialGrid) (x y r : ℚ) (j : ℤ) :
    (g.getNearbyParticles x y r).count j =
      ((queryCells g x y r).map (fun k => (g.grid.getD k []).count j)).sum := by
  unfold SpatialGrid.getNearbyParticles queryCells
  rw [List.count_flatMap, sum_map_flatMap]
  refine congrArg List.sum (List.map_congr_left ?_)
  intro gy _
  rw [Function.comp_apply, List.count_flatMap, List.map_map]
  rfl

theorem rowcol_toNat_inj {gw a1 b1 a2 b2 : ℤ} (hgw : 1 ≤ gw)
    (ha10 : 0 ≤ a1) (ha20 : 0 ≤ a2)
    (hb10 : 0 ≤ b1) (hb11 : b1 ≤ gw - 1)
    (hb20 : 0 ≤ b2) (hb21 : b2 ≤ gw - 1)
    (h : (a1 * gw + b1).toNat = (a2 * gw + b2).toNat) : a1 = a2 ∧ b1 = b2 := by
  have h1 : 0 ≤ a1 * gw := mul_nonneg ha10 (by omega)
  have h2 : 0 ≤ a2 * gw := mul_nonneg ha20 (by omega)
  have h3 : a1 * gw + b1 = a2 * gw + b2 := by omega
  rcases lt_trichotomy a1 a2 with hlt | heq | hgt
  · exfalso
    have e1 : (a2 - a1) * gw = a2 * gw - a1 * gw := by ring
    have e3 : (1 : ℤ) ≤ a2 - a1 := by omega
    have e4 : gw ≤ (a2 - a1) * gw := le_mul_of_one_le_left (by omega) e3
    omega
  · refine ⟨heq, ?_⟩
    subst heq
    omega
  · exfalso
    have e1 : (a1 - a2) * gw = a1 * gw - a2 * gw := by ring
    have e3 : (1 : ℤ) ≤ a1 - a2 := by omega
    have e4 : gw ≤ (a1 - a2) * gw := le_mul_of_one_le_left (by omega) e3
    omega

theorem queryCells_nodup (g : SpatialGrid) (hwf : g.Wf) (x y r : ℚ) :
    (queryCells g x y r).Nodup := by
  have hw := hwf.1
  have hh := hwf.2.1
  have hxb1 := g.gridXof_bounds hw (x - r)
  have hxb2 := g.gridXof_bounds hw (x + r)
  have hyb1 := g.gridYof_bounds hh (y - r)
  have hyb2 := g.gridYof_bounds hh (y + r)
  unfold queryCells
  rw [List.nodup_flatMap]
  constructor
  · intro gy hgy
    obtain ⟨hgy1, hgy2⟩ := mem_intRange.mp hgy
    apply List.Nodup.map_on
    · intro b1 hb1 b2 hb2 hEq
      obtain ⟨hb11, hb12⟩ := mem_intRange.mp hb1
      obtain ⟨hb21, hb22⟩ := mem_intRange.mp hb2
      exact (rowcol_toNat_inj hw (by omega) (by omega) (by omega) (by omega)
        (by omega) (by omega) hEq).2
    · exact intRange_nodup _ _
  · apply List.Pairwise.imp_of_mem ?_
      ((intRange_nodup (g.gridYof (y - r)) (g.gridYof (y + r))) :
        List.Pairwise (fun a b => a ≠ b) _)
    intro a b ha hb hne
    obtain ⟨ha1, ha2⟩ := mem_intRange.mp ha
    obtain ⟨hb1, hb2⟩ := mem_intRange.mp hb
    intro k hk1 hk2
    obtain ⟨c1, hc1, rfl⟩ := List.mem_map.mp hk1
    obtain ⟨c2, hc2, hceq⟩ := List.mem_map.mp hk2
    obtain ⟨hc11, hc12⟩ := mem_intRange.mp hc1
    obtain ⟨hc21, hc22⟩ := mem_intRange.mp hc2
    exact hne (rowcol_toNat_inj hw (by omega) (by omega) (by omega) (by omega)
      (by omega) (by omega) hceq.symm).1

theorem queryCells_bounded (g : SpatialGrid) (hwf : g.Wf) (x y r : ℚ) :
    ∀ k ∈ queryCells g x y r, k < g.grid.length := by
  have hw := hwf.1
  have hh := hwf.2.1
  have hxb1 := g.gridXof_bounds hw (x - r)
  have hxb2 := g.gridXof_bounds hw (x + r)
  have hyb1 := g.gridYof_bounds hh (y - r)
  have hyb2 := g.gridYof_bounds hh (y + r)
  intro k hk
  unfold queryCells at hk
  obtain ⟨gy, hgy, hk2⟩ := List.mem_flatMap.mp hk
  obtain ⟨gx, hgx, rfl⟩ := List.mem_map.mp hk2
  obtain ⟨hgy1, hgy2⟩ := mem_intRange.mp hgy
  obtain ⟨hgx1, hgx2⟩ := mem_intRange.mp hgx
  exact (cell_linear_bounds g hwf (by omega) (by omega) (by omega)
    (by omega)).2

theorem count_query_le_total (g : SpatialGrid) (hwf : g.Wf) (x y r : ℚ)
    (j : ℤ) :
    (g.getNearbyParticles x y r).count j ≤ (g.grid.flatten).count j := by
  rw [getNearbyParticles_count_eq, count_flatten_eq_sum]
  exact sum_map_nodup_le _ (queryCells_nodup g hwf x y r) _
    (queryCells_bounded g hwf x y r) _

/-- C10: after `clear()` (of any grid built with a valid configuration
and filled arbitrarily) followed by any sequence of `addParticle` calls
with pairwise-distinct particle indices, every `getNearbyParticles`
query returns a duplicate-free list containing only indices added since
the clear. -/
theorem getNearbyParticles_nodup_and_sound
    (cellSize minX minY maxX maxY : ℚ)
    (hcs : 0 < cellSize) (hx : minX ≤ maxX) (hy : minY ≤ maxY)
    (l0 l : List (ℤ × ℚ × ℚ))
    (hnodup : (l.map (fun e => e.1)).Nodup)
    (x y r : ℚ) :
    ((addAll ((addAll (SpatialGrid.build cellSize minX minY maxX maxY)
        l0).clear) l).getNearbyParticles x y r).Nodup ∧
    ∀ j ∈ (addAll ((addAll (SpatialGrid.build cellSize minX minY maxX maxY)
        l0).clear) l).getNearbyParticles x y r,
      j ∈ l.map (fun e => e.1) := by
  have hwf1 : (addAll (SpatialGrid.build cellSize minX minY maxX maxY)
      l0).Wf :=
    addAll_wf (SpatialGrid.build_wf cellSize minX minY maxX maxY hcs hx hy) l0
  have hwf2 := SpatialGrid.clear_wf hwf1
  have hwf := addAll_wf hwf2 l
  have htotal : ∀ j : ℤ,
      ((addAll ((addAll (SpatialGrid.build cellSize minX minY maxX maxY)
        l0).clear) l).grid.flatten).count j ≤
      (l.map (fun e => e.1)).count j := by
    intro j
    have h1 := addAll_count
      ((addAll (SpatialGrid.build cellSize minX minY maxX maxY) l0).clear) l j
    rw [clear_flatten] at h1
    simpa using h1
  have hquery : ∀ j : ℤ,
      ((addAll ((addAll (SpatialGrid.build cellSize minX minY maxX maxY)
        l0).clear) l).getNearbyParticles x y r).count j ≤
      (l.map (fun e => e.1)).count j :=
    fun j => le_trans (count_query_le_total _ hwf x y r j) (htotal j)
  constructor
  · rw [List.nodup_iff_count_le_one]
    intro a
    exact le_trans (hquery a) (List.nodup_iff_count_le_one.mp hnodup a)
  · intro j hj
    have h2 : 0 < ((addAll ((addAll
        (SpatialGrid.build cellSize minX minY maxX maxY) l0).clear)
        l).getNearbyParticles x y r).count j :=
      List.count_pos_iff.mpr hj
    have h3 : 0 < (l.map (fun e => e.1)).count j :=
      lt_of_lt_of_le h2 (hquery j)
    exact List.count_pos_iff.mp h3

/-- Witness for `getNearbyParticles_nodup_and_sound`: a cleared `[-1,1]²`
grid, two distinct insertions, query at the origin with radius `1`. -/
theorem getNearbyParticles_nodup_and_sound_witness :
    ((addAll ((addAll (SpatialGrid.build 1 (-1) (-1) 1 1) []).clear)
        [(0, 0, 0), (1, 1/2, 1/2)]).getNearbyParticles 0 0 1).Nodup :=
  (getNearbyParticles_nodup_and_sound 1 (-1) (-1) 1 1 (by norm_num)
    (by norm_num) (by norm_num) [] [(0, 0, 0), (1, 1/2, 1/2)]
    (by simp) 0 0 1).1
